import Mathlib

set_option autoImplicit false
set_option linter.unusedVariables false

/-
Verification of the schema-inference and indexing core of eccodes_grib
(src/eccodes_grib/dataset.py): key catalogs, the three sniffers
(significant keys, variable attributes, raw coordinates), the Variable
grouping guard and dimension/shape derivation, the cached build_array,
and the Dataset.variables enumeration.

Python values are embedded as an inductive `Value`; a Python mapping is an
association list looked up by first match, matching dict semantics when the
list is built by `dictInsert` (which overwrites in place).  Fallible code
returns `Except PyError`.
-/

namespace EccodesGrib

/-- Metadata key (a Python string). -/
abbrev Key := String

/-- Scalar metadata value as it appears in a GRIB message or an index:
a string, an integer, or the floating not-a-number sentinel used by
`np.full(..., fill_value=np.nan)` (treated as an opaque sentinel). -/
inductive Value where
  | str : String → Value
  | int : Int → Value
  | nan : Value
  deriving DecidableEq, Repr

/-- First-match lookup in an association list, the behaviour of `d[k]` /
`d.get(k)` on a Python dict whose insertion discipline keeps keys unique. -/
def dlookup {κ α : Type} [BEq κ] : List (κ × α) → κ → Option α
  | [], _ => none
  | p :: d, k => if p.1 == k then some p.2 else dlookup d k

/-- Python `d[k] = v` on a dict: overwrite the value at an existing key in
place, otherwise append the new binding at the end. -/
def dictInsert {α : Type} : List (Key × α) → Key → α → List (Key × α)
  | [], k, v => [(k, v)]
  | (k', v') :: d, k, v =>
    if k' == k then (k', v) :: d else (k', v') :: dictInsert d k v

/-- One GRIB message's metadata: a mapping from key to a scalar that may be
stored as null (`none` in the value position models a stored Python None). -/
abbrev Message := List (Key × Option Value)

/-- Python `message.get(key)`: `none` when the key is absent or its stored
value is null, so `isSome` is exactly "present and non-null". -/
def Message.get (m : Message) (k : Key) : Option Value :=
  (dlookup m k).bind id

/-- Metadata index over a message collection: each tracked key maps to the
ordered, deduplicated sequence of distinct values observed for it. -/
abbrev Index := List (Key × List Value)

/-- Grid-type catalog: maps a grid-type value to its ordered key list. -/
abbrev GridTypeMap := List (Value × List Key)

/-- Exceptions raised by dataset.py, by Python exception class. -/
inductive PyError where
  | keyError (key : Key)
  | indexError
  | multipleValuesError (key : Key)
  | multipleVariablesError
  | typeError (kw : String)
  deriving DecidableEq, Repr

/-! Key catalogs (dataset.py lines 37-73, 93-99, 118). -/

def PARAMETER_KEYS : List Key := ["centre", "paramId", "shortName", "units", "name"]

def TIME_KEYS : List Key :=
  ["dataDate", "endStep", "startStep", "stepRange", "stepUnits", "dataTime",
   "validityDate", "validityTime", "stepType"]

def GEOGRAPHY_KEYS : List Key := ["gridType"]

def VERTICAL_KEYS : List Key := ["bottomLevel", "level", "pv", "topLevel", "typeOfLevel"]

def NAMESPACE_KEYS : List Key := PARAMETER_KEYS ++ TIME_KEYS ++ GEOGRAPHY_KEYS ++ VERTICAL_KEYS

def REGULAR_LL_KEYS : List Key :=
  ["Ni", "Nj", "iDirectionIncrementInDegrees", "iScansNegatively",
   "jDirectionIncrementInDegrees", "jPointsAreConsecutive", "jScansPositively",
   "latitudeOfFirstGridPointInDegrees", "latitudeOfLastGridPointInDegrees",
   "longitudeOfFirstGridPointInDegrees", "longitudeOfLastGridPointInDegrees"]

def REGULAR_GG_KEYS : List Key :=
  ["Ni", "Nj", "iDirectionIncrementInDegrees", "iScansNegatively",
   "N", "jPointsAreConsecutive", "jScansPositively",
   "latitudeOfFirstGridPointInDegrees", "latitudeOfLastGridPointInDegrees",
   "longitudeOfFirstGridPointInDegrees", "longitudeOfLastGridPointInDegrees"]

def GRID_TYPE_MAP : GridTypeMap :=
  [(Value.str "regular_ll", REGULAR_LL_KEYS),
   (Value.str "regular_gg", REGULAR_GG_KEYS)]

def DATA_KEYS : List Key := ["numberOfDataPoints", "packingType"]

def ENSEMBLE_KEYS : List Key := ["number"]

def EDITION_INDEPENDENT_KEYS : List Key := NAMESPACE_KEYS ++ DATA_KEYS ++ ENSEMBLE_KEYS

def VARIABLE_ATTRS_KEYS : List Key :=
  ["centre", "paramId", "shortName", "units", "name",
   "stepUnits", "stepType", "typeOfLevel", "gridType", "numberOfDataPoints"]

def RAW_COORDINATES_KEYS : List Key :=
  ["number", "dataDate", "dataTime", "endStep", "topLevel"]

/-! Significance sniffer (dataset.py lines 76-90). -/

/-- Embedding of `sniff_significant_keys`.  The first component records
whether the unknown-gridType warning was logged; the second is the returned
key list: the concatenation of the edition-independent keys with the
grid-type-specific keys (empty when the leader's gridType is absent or not in
the catalog), filtered to keys whose value is present and non-null. -/
def sniff_significant_keys (message : Message) (ei_keys : List Key)
    (grid_type_map : GridTypeMap) : Bool × List Key :=
  let grid_type : Option Value := Message.get message "gridType"
  match grid_type.bind (fun g => dlookup grid_type_map g) with
  | some grid_type_keys =>
      (false, (ei_keys ++ grid_type_keys).filter (fun k => (Message.get message k).isSome))
  | none =>
      (true, (ei_keys ++ []).filter (fun k => (Message.get message k).isSome))

/-! Attribute sniffer (dataset.py lines 102-115). -/

/-- Grid-type determination step of `sniff_variable_attrs`:
`significant_index.get('gridType', [None])[0]`.  An absent key falls back to
the default `[None]`, whose first element is null; a present key with an
empty value list raises IndexError on the `[0]` subscript. -/
def attrsGridType (idx : Index) : Except PyError (Option Value) :=
  match dlookup idx "gridType" with
  | some [] => Except.error PyError.indexError
  | some (v :: _) => Except.ok (some v)
  | none => Except.ok none

/-- Python `grid_type_map.get(grid_type, [])` where `grid_type` may be null:
null is never a key of the catalog, so it selects the empty default. -/
def gtmGetOpt (gtm : GridTypeMap) (g : Option Value) : List Key :=
  match g with
  | none => []
  | some v => (dlookup gtm v).getD []

/-- Loop body of `sniff_variable_attrs`: for each key, look the key up in the
index (KeyError when absent), raise NotImplementedError when the value
sequence has more than one entry, IndexError when it is empty, and otherwise
store its sole value under the key with dict-overwrite semantics. -/
def sniffAttrsLoop (idx : Index) :
    List Key → List (Key × Value) → Except PyError (List (Key × Value))
  | [], attrs => Except.ok attrs
  | k :: ks, attrs =>
    match dlookup idx k with
    | none => Except.error (PyError.keyError k)
    | some [] => Except.error PyError.indexError
    | some [v] => sniffAttrsLoop idx ks (dictInsert attrs k v)
    | some (_ :: _ :: _) => Except.error (PyError.multipleValuesError k)

/-- Embedding of `sniff_variable_attrs`: determine the grid type from the
index's first gridType value, then run the collapsing loop over the
attribute keys concatenated with the grid-type-specific keys. -/
def sniff_variable_attrs (idx : Index) (attrs_keys : List Key)
    (grid_type_map : GridTypeMap) : Except PyError (List (Key × Value)) :=
  match attrsGridType idx with
  | Except.error e => Except.error e
  | Except.ok g => sniffAttrsLoop idx (attrs_keys ++ gtmGetOpt grid_type_map g) []

/-! Coordinate sniffer (dataset.py lines 121-130). -/

/-- Loop body of `sniff_raw_coordinates`: copy each required key's full value
sequence verbatim into the result dict; `significant_index[key]` raises
KeyError when the key is absent. -/
def sniffCoordsLoop (idx : Index) :
    List Key → List (Key × List Value) → Except PyError (List (Key × List Value))
  | [], acc => Except.ok acc
  | k :: ks, acc =>
    match dlookup idx k with
    | none => Except.error (PyError.keyError k)
    | some vs => sniffCoordsLoop idx ks (dictInsert acc k vs)

/-- Embedding of `sniff_raw_coordinates`.  The `grid_type_map` parameter is
part of the source signature but never read by the body. -/
def sniff_raw_coordinates (idx : Index) (raw_coordinates_keys : List Key)
    (grid_type_map : GridTypeMap) : Except PyError (List (Key × List Value)) :=
  sniffCoordsLoop idx raw_coordinates_keys []

/-! Variable (dataset.py lines 144-183). -/

/-- Modelled from the spec: the module `messages` is not under src, so the
coarse index that `Variable.__attrs_post_init__` builds over the grouping
key is modelled per spec section 3 as the ordered, deduplicated sequence of
distinct grouping-key values observed in the stream; per spec section 4.4
its length is the number of distinct grouping-key values in scope. -/
structure ParamIdIndex where
  distinctValues : List Value
  deriving DecidableEq, Repr

/-- Grouping guard of `Variable.__attrs_post_init__` (dataset.py lines
152-153): raise NotImplementedError when the coarse index holds more than
one distinct grouping-key value, otherwise fall through. -/
def groupGuard (paramId_index : ParamIdIndex) : Except PyError Unit :=
  if 1 < paramId_index.distinctValues.length then
    Except.error PyError.multipleVariablesError
  else
    Except.ok ()

/-- Embedding of dataset.py line 163: `dimensions` is the list of coordinate
keys whose value sequence has more than one entry, in the coordinate dict's
iteration order. -/
def variableDimensions (coordinates : List (Key × List Value)) : List Key :=
  (coordinates.filter (fun p => decide (1 < p.2.length))).map Prod.fst

/-- Embedding of dataset.py line 165: `shape` is the list of those same value
sequences' lengths, in the same iteration order. -/
def variableShape (coordinates : List (Key × List Value)) : List Nat :=
  (coordinates.filter (fun p => decide (1 < p.2.length))).map (fun p => p.2.length)

/-- Result of `np.full(shape, ...)`: a container carrying its shape and the
flattened element data. -/
structure GrArray where
  shape : List Nat
  data : List Value
  deriving DecidableEq, Repr

/-- Number of elements of an array of the given shape. -/
def shapeSize (shape : List Nat) : Nat := shape.foldr (fun a b => a * b) 1

/-- Embedding of `np.full(shape, fill_value, dtype)`: every element is the
fill value.  The source fills with the missing sentinel `np.nan`; no message
payload is consulted. -/
def npFull (shape : List Nat) (fill : Value) : GrArray :=
  { shape := shape, data := List.replicate (shapeSize shape) fill }

/-- Mutable state of a constructed Variable relevant to `build_array`: its
`shape` attribute and the `_build_array` cache slot managed by the `cached`
decorator (dataset.py lines 133-141), absent right after construction. -/
structure VariableState where
  shape : List Nat
  build_array_cache : Option GrArray
  deriving DecidableEq, Repr

/-- Embedding of `Variable.build_array` under the `cached` decorator
(dataset.py lines 177-180): return the cached array when the cache slot is
set, otherwise allocate `np.full(self.shape, np.nan, float32)`, store it in
the slot and return it.  Only `shape` is read; no payload decode occurs. -/
def build_array (v : VariableState) : GrArray × VariableState :=
  match v.build_array_cache with
  | some a => (a, v)
  | none =>
      let a := npFull v.shape Value.nan
      (a, { v with build_array_cache := some a })

/-! Dataset (dataset.py lines 186-202). -/

/-- Keyword parameters accepted by the attrs-generated initializer of
`Variable`, in declaration order (dataset.py lines 146-148). -/
def variableInitKeywords : List String := ["paramId", "stream", "name"]

/-- Keyword arguments that `Dataset.variables` passes to `Variable` at its
call site (dataset.py line 200): `Variable(paramId=param_id, dataset=self)`. -/
def datasetVariablesCallKeywords : List String := ["paramId", "dataset"]

/-- Python keyword-call check: a call raises TypeError (unexpected keyword
argument) unless every passed keyword is an accepted parameter name. -/
def keywordsAccepted (accepted passed : List String) : Bool :=
  passed.all (fun k => accepted.contains k)

/-- One iteration of the `Dataset.variables` loop: constructing the Variable
for one grouping-key value.  The keyword check happens before any attrs
initializer or post-init code runs, so when it fails the iteration raises
TypeError naming the unexpected keyword; the success branch (unreachable for
this call site, since the passed keyword list is fixed by line 200) stands
for the constructed Variable, represented by its grouping-key value. -/
def datasetVariablesStep (param_id : Value) : Except PyError Value :=
  if keywordsAccepted variableInitKeywords datasetVariablesCallKeywords then
    Except.ok param_id
  else
    Except.error (PyError.typeError "dataset")

/-- Embedding of the `Dataset.variables` loop (dataset.py lines 197-202)
over the coarse index's distinct grouping-key values: each iteration
constructs one Variable; the first raised exception aborts the whole
enumeration and no mapping is returned. -/
def datasetVariablesRun : List Value → Except PyError (List Value)
  | [] => Except.ok []
  | p :: ps =>
    match datasetVariablesStep p with
    | Except.error e => Except.error e
    | Except.ok v =>
      match datasetVariablesRun ps with
      | Except.error e => Except.error e
      | Except.ok vs => Except.ok (v :: vs)

/-! Lemmas about association-list lookup and dict insertion. -/

theorem dlookup_nil {α : Type} (k : Key) : dlookup ([] : List (Key × α)) k = none := rfl

theorem dlookup_cons_eq {α : Type} (k : Key) (v : α) (d : List (Key × α)) :
    dlookup ((k, v) :: d) k = some v := by
  simp [dlookup]

theorem dlookup_cons_ne {α : Type} (k' k : Key) (v : α) (d : List (Key × α))
    (h : k' ≠ k) : dlookup ((k', v) :: d) k = dlookup d k := by
  simp [dlookup, h]

theorem dlookup_dictInsert_self {α : Type} (d : List (Key × α)) (k : Key) (v : α) :
    dlookup (dictInsert d k v) k = some v := by
  induction d with
  | nil => simp [dictInsert, dlookup]
  | cons p d ih =>
    by_cases h : p.1 = k
    · subst h
      simp [dictInsert, dlookup]
    · have hb : (p.1 == k) = false := by simp [h]
      simp [dictInsert, hb, dlookup, ih]

theorem dlookup_dictInsert_ne {α : Type} (d : List (Key × α)) (k k₂ : Key) (v : α)
    (h : k₂ ≠ k) : dlookup (dictInsert d k v) k₂ = dlookup d k₂ := by
  induction d with
  | nil =>
    have hb : (k == k₂) = false := by simp [Ne.symm h]
    simp [dictInsert, dlookup, hb]
  | cons p d ih =>
    by_cases hp : p.1 = k
    · have hb : (p.1 == k) = true := by simp [hp]
      have hb2 : (p.1 == k₂) = false := by
        simp [hp, Ne.symm h]
      simp [dictInsert, hb, dlookup, hb2]
    · have hb : (p.1 == k) = false := by simp [hp]
      by_cases hp2 : p.1 = k₂
      · have hb2 : (p.1 == k₂) = true := by simp [hp2]
        simp [dictInsert, hb, dlookup, hb2]
      · have hb2 : (p.1 == k₂) = false := by simp [hp2]
        simp [dictInsert, hb, dlookup, hb2, ih]

theorem dictInsert_of_not_mem {α : Type} (d : List (Key × α)) (k : Key) (v : α)
    (h : ∀ p ∈ d, p.1 ≠ k) : dictInsert d k v = d ++ [(k, v)] := by
  induction d with
  | nil => rfl
  | cons p d ih =>
    have hp : p.1 ≠ k := h p (List.mem_cons_self p d)
    have hb : (p.1 == k) = false := by simp [hp]
    simp only [dictInsert, hb, Bool.false_eq_true, if_false, List.cons_append,
      List.cons.injEq, true_and]
    exact ih (fun q hq => h q (List.mem_cons_of_mem p hq))

theorem dlookup_keyedMap {α : Type} (ks : List Key) (f : Key → α) (k : Key)
    (hk : k ∈ ks) : dlookup (ks.map (fun k' => (k', f k'))) k = some (f k) := by
  induction ks with
  | nil => cases hk
  | cons a ks ih =>
    by_cases h : a = k
    · subst h
      simp [dlookup]
    · have hb : (a == k) = false := by simp [h]
      have hk2 : k ∈ ks := by
        cases hk with
        | head => exact absurd rfl h
        | tail _ h2 => exact h2
      simp [dlookup, hb, ih hk2]

theorem map_fst_keyedMap {α : Type} (ks : List Key) (f : Key → α) :
    (ks.map (fun k => (k, f k))).map Prod.fst = ks := by
  induction ks with
  | nil => rfl
  | cons a ks ih => simp [ih]

theorem exists_distinct_pair_iff {α : Type} (l : List α) (hnd : l.Nodup) :
    (∃ a ∈ l, ∃ b ∈ l, a ≠ b) ↔ 1 < l.length := by
  constructor
  · rintro ⟨a, ha, b, hb, hab⟩
    cases l with
    | nil => cases ha
    | cons x t =>
      cases t with
      | nil =>
        have h1 : a = x := by simpa using ha
        have h2 : b = x := by simpa using hb
        exact absurd (h1.trans h2.symm) hab
      | cons y t2 => simp
  · intro hlen
    cases l with
    | nil => simp at hlen
    | cons x t =>
      cases t with
      | nil => simp at hlen
      | cons y t2 =>
        have hxy : x ≠ y := by
          intro he
          exact (List.nodup_cons.mp hnd).1 (he ▸ List.mem_cons_self y t2)
        exact ⟨x, List.mem_cons_self _ _, y,
          List.mem_cons_of_mem _ (List.mem_cons_self _ _), hxy⟩

/-- Running the attribute-collapsing loop over keys whose index entries are
all singletons succeeds, and the resulting dict binds exactly the processed
keys (plus whatever the accumulator already bound) to the sole values. -/
theorem sniffAttrsLoop_ok_of_singletons (idx : Index) (ks : List Key) :
    ∀ acc : List (Key × Value),
    (∀ k ∈ ks, ∃ v, dlookup idx k = some [v]) →
    ∃ attrs, sniffAttrsLoop idx ks acc = Except.ok attrs
      ∧ (∀ k, (dlookup attrs k).isSome = true ↔ (k ∈ ks ∨ (dlookup acc k).isSome = true))
      ∧ (∀ k, k ∈ ks → dlookup attrs k = ((dlookup idx k).getD []).head?)
      ∧ (∀ k, k ∉ ks → dlookup attrs k = dlookup acc k) := by
  induction ks with
  | nil =>
    intro acc hsingle
    exact ⟨acc, rfl, by simp, by simp, fun k _ => rfl⟩
  | cons k ks ih =>
    intro acc hsingle
    obtain ⟨v, hv⟩ := hsingle k (List.mem_cons_self _ _)
    have hrest : ∀ k₂ ∈ ks, ∃ v₂, dlookup idx k₂ = some [v₂] :=
      fun k₂ hk₂ => hsingle k₂ (List.mem_cons_of_mem _ hk₂)
    obtain ⟨attrs, hok, hmem, hin, hout⟩ := ih (dictInsert acc k v) hrest
    refine ⟨attrs, by simp [sniffAttrsLoop, hv, hok], ?_, ?_, ?_⟩
    · intro k₂
      rw [hmem k₂, List.mem_cons]
      by_cases h : k₂ = k
      · subst h
        simp [dlookup_dictInsert_self]
      · rw [dlookup_dictInsert_ne acc k k₂ v h]
        tauto
    · intro k₂ hk₂
      by_cases h : k₂ ∈ ks
      · exact hin k₂ h
      · have hk : k₂ = k := by
          rcases List.mem_cons.mp hk₂ with he | hm
          · exact he
          · exact absurd hm h
        subst hk
        rw [hout k₂ h, dlookup_dictInsert_self, hv]
        rfl
    · intro k₂ hk₂
      have h1 : k₂ ∉ ks := fun h => hk₂ (List.mem_cons_of_mem _ h)
      have h2 : k₂ ≠ k := fun h => hk₂ (h ▸ List.mem_cons_self _ _)
      rw [hout k₂ h1, dlookup_dictInsert_ne acc k k₂ v h2]

/-- When every key's index entry is present and non-empty but some key's
entry has more than one value, the attribute-collapsing loop raises the
multiple-values error. -/
theorem sniffAttrsLoop_error_of_multi (idx : Index) (ks : List Key) :
    ∀ acc : List (Key × Value),
    (∀ k ∈ ks, ∃ vs, dlookup idx k = some vs ∧ vs ≠ []) →
    (∃ k ∈ ks, ∃ vs, dlookup idx k = some vs ∧ 1 < vs.length) →
    ∃ k, sniffAttrsLoop idx ks acc = Except.error (PyError.multipleValuesError k) := by
  induction ks with
  | nil =>
    intro acc _ hmulti
    obtain ⟨k, hk, _⟩ := hmulti
    cases hk
  | cons k ks ih =>
    intro acc hpres hmulti
    obtain ⟨vs, hvs, hne⟩ := hpres k (List.mem_cons_self _ _)
    cases vs with
    | nil => exact absurd rfl hne
    | cons v vt =>
      cases vt with
      | nil =>
        have hmulti2 : ∃ k₂ ∈ ks, ∃ vs₂, dlookup idx k₂ = some vs₂ ∧ 1 < vs₂.length := by
          obtain ⟨k₂, hk₂, vs₂, hvs₂, hlen⟩ := hmulti
          rcases List.mem_cons.mp hk₂ with he | hm
          · subst he
            rw [hvs] at hvs₂
            injection hvs₂ with h
            subst h
            simp at hlen
          · exact ⟨k₂, hm, vs₂, hvs₂, hlen⟩
        have hpres2 : ∀ k₂ ∈ ks, ∃ vs₂, dlookup idx k₂ = some vs₂ ∧ vs₂ ≠ [] :=
          fun k₂ h => hpres k₂ (List.mem_cons_of_mem _ h)
        obtain ⟨k₃, h3⟩ := ih (dictInsert acc k v) hpres2 hmulti2
        exact ⟨k₃, by simp [sniffAttrsLoop, hvs, h3]⟩
      | cons w wt =>
        exact ⟨k, by simp [sniffAttrsLoop, hvs]⟩

/-- When the attribute-collapsing loop succeeds, every processed key's index
entry was a singleton. -/
theorem sniffAttrsLoop_ok_singletons (idx : Index) (ks : List Key) :
    ∀ (acc attrs : List (Key × Value)),
    sniffAttrsLoop idx ks acc = Except.ok attrs →
    ∀ k ∈ ks, ∃ v, dlookup idx k = some [v] := by
  induction ks with
  | nil => intro acc attrs _ k hk; cases hk
  | cons k ks ih =>
    intro acc attrs hok k₂ hk₂
    cases hl : dlookup idx k with
    | none => simp [sniffAttrsLoop, hl] at hok
    | some vs =>
      cases vs with
      | nil => simp [sniffAttrsLoop, hl] at hok
      | cons v vt =>
        cases vt with
        | nil =>
          rcases List.mem_cons.mp hk₂ with he | hm
          · exact he ▸ ⟨v, hl⟩
          · have hok2 : sniffAttrsLoop idx ks (dictInsert acc k v) = Except.ok attrs := by
              simpa [sniffAttrsLoop, hl] using hok
            exact ih (dictInsert acc k v) attrs hok2 k₂ hm
        | cons w wt => simp [sniffAttrsLoop, hl] at hok

/-- The coordinate-copying loop over distinct, present keys succeeds and
returns the accumulator extended with one verbatim binding per key, in key
order. -/
theorem sniffCoordsLoop_ok (idx : Index) (ks : List Key) :
    ∀ acc : List (Key × List Value), ks.Nodup →
    (∀ p ∈ acc, p.1 ∉ ks) →
    (∀ k ∈ ks, (dlookup idx k).isSome = true) →
    sniffCoordsLoop idx ks acc =
      Except.ok (acc ++ ks.map (fun k => (k, (dlookup idx k).getD []))) := by
  induction ks with
  | nil => intro acc _ _ _; simp [sniffCoordsLoop]
  | cons k ks ih =>
    intro acc hnd hdisj hpres
    obtain ⟨vs, hvs⟩ := Option.isSome_iff_exists.mp (hpres k (List.mem_cons_self _ _))
    have hins : dictInsert acc k vs = acc ++ [(k, vs)] :=
      dictInsert_of_not_mem acc k vs
        (fun p hp he => hdisj p hp (he ▸ List.mem_cons_self _ _))
    have hknotin : k ∉ ks := (List.nodup_cons.mp hnd).1
    have hdisj2 : ∀ p ∈ acc ++ [(k, vs)], p.1 ∉ ks := by
      intro p hp
      rcases List.mem_append.mp hp with h | h
      · exact fun h2 => hdisj p h (List.mem_cons_of_mem _ h2)
      · have he : p = (k, vs) := by simpa using h
        subst he
        exact hknotin
    have hrec := ih (acc ++ [(k, vs)]) (List.nodup_cons.mp hnd).2 hdisj2
      (fun k₂ h => hpres k₂ (List.mem_cons_of_mem _ h))
    simp only [sniffCoordsLoop, hvs]
    rw [hins, hrec]
    simp [hvs]

/-- When a required key is absent from the index, the coordinate-copying
loop raises KeyError. -/
theorem sniffCoordsLoop_error_of_absent (idx : Index) (ks : List Key) :
    ∀ acc : List (Key × List Value),
    (∃ k ∈ ks, dlookup idx k = none) →
    ∃ k, sniffCoordsLoop idx ks acc = Except.error (PyError.keyError k) := by
  induction ks with
  | nil =>
    intro acc habs
    obtain ⟨k, hk, _⟩ := habs
    cases hk
  | cons k ks ih =>
    intro acc habs
    cases hl : dlookup idx k with
    | none => exact ⟨k, by simp [sniffCoordsLoop, hl]⟩
    | some vs =>
      have habs2 : ∃ k₂ ∈ ks, dlookup idx k₂ = none := by
        obtain ⟨k₂, hk₂, hnone⟩ := habs
        rcases List.mem_cons.mp hk₂ with he | hm
        · subst he
          rw [hl] at hnone
          cases hnone
        · exact ⟨k₂, hm, hnone⟩
      obtain ⟨k₃, h3⟩ := ih (dictInsert acc k vs) habs2
      exact ⟨k₃, by simp [sniffCoordsLoop, hl, h3]⟩

/-- When the coordinate-copying loop succeeds, every processed key was
present in the index. -/
theorem sniffCoordsLoop_ok_present (idx : Index) (ks : List Key) :
    ∀ (acc coords : List (Key × List Value)),
    sniffCoordsLoop idx ks acc = Except.ok coords →
    ∀ k ∈ ks, (dlookup idx k).isSome = true := by
  induction ks with
  | nil => intro acc coords _ k hk; cases hk
  | cons k ks ih =>
    intro acc coords hok k₂ hk₂
    cases hl : dlookup idx k with
    | none => simp [sniffCoordsLoop, hl] at hok
    | some vs =>
      rcases List.mem_cons.mp hk₂ with he | hm
      · subst he
        simp [hl]
      · have hok2 : sniffCoordsLoop idx ks (dictInsert acc k vs) = Except.ok coords := by
          simpa [sniffCoordsLoop, hl] using hok
        exact ih (dictInsert acc k vs) coords hok2 k₂ hm

/-- A successful coordinate sniff over distinct keys returns exactly one
verbatim binding per key, in key order. -/
theorem sniff_raw_coordinates_ok_eq (idx : Index) (ks : List Key) (gtm : GridTypeMap)
    (hnd : ks.Nodup) (coords : List (Key × List Value))
    (hok : sniff_raw_coordinates idx ks gtm = Except.ok coords) :
    coords = ks.map (fun k => (k, (dlookup idx k).getD [])) := by
  have hpres := sniffCoordsLoop_ok_present idx ks [] coords hok
  have heq := sniffCoordsLoop_ok idx ks [] hnd (by simp) hpres
  simp only [sniff_raw_coordinates] at hok
  rw [heq] at hok
  injection hok with h
  simpa using h.symm

theorem variableDimensions_keyedMap (ks : List Key) (f : Key → List Value) :
    variableDimensions (ks.map (fun k => (k, f k))) =
      ks.filter (fun k => decide (1 < (f k).length)) := by
  unfold variableDimensions
  rw [List.filter_map]
  exact map_fst_keyedMap _ f

theorem variableShape_keyedMap (ks : List Key) (f : Key → List Value) :
    variableShape (ks.map (fun k => (k, f k))) =
      (ks.filter (fun k => decide (1 < (f k).length))).map (fun k => (f k).length) := by
  unfold variableShape
  rw [List.filter_map, List.map_map]
  rfl

/-! Claim theorems. -/

/-- Claim C4: for every message whose gridType value is a key of the
grid-type catalog, the significance sniffer emits no warning and returns the
edition-independent keys followed by that grid type's keys (grid-type keys
last), each list filtered to the keys whose value in the message is present
and non-null; the two filtered lists are concatenated, so a key in both
lists is kept twice, in concatenation order. -/
theorem sniff_significant_keys_known_grid (message : Message) (ei_keys : List Key)
    (gtm : GridTypeMap) (g : Value) (gks : List Key)
    (hg : Message.get message "gridType" = some g)
    (hmap : dlookup gtm g = some gks) :
    sniff_significant_keys message ei_keys gtm =
      (false,
        ei_keys.filter (fun k => (Message.get message k).isSome)
          ++ gks.filter (fun k => (Message.get message k).isSome)) := by
  simp [sniff_significant_keys, hg, hmap, List.filter_append]

/-- Witness for C4: a concrete regular_ll message; paramId is present in
both the edition-independent list and the probe list, Ni only in the
grid-specific list, shortName is stored null and is dropped. -/
def significanceMessageW : Message :=
  [("gridType", some (Value.str "regular_ll")),
   ("paramId", some (Value.int 130)),
   ("Ni", some (Value.int 16)),
   ("shortName", none)]

theorem sniff_significant_keys_known_grid_witness :
    sniff_significant_keys significanceMessageW ["paramId", "shortName"] GRID_TYPE_MAP =
      (false,
        (["paramId", "shortName"] : List Key).filter
            (fun k => (Message.get significanceMessageW k).isSome)
          ++ REGULAR_LL_KEYS.filter
            (fun k => (Message.get significanceMessageW k).isSome)) :=
  sniff_significant_keys_known_grid significanceMessageW ["paramId", "shortName"]
    GRID_TYPE_MAP (Value.str "regular_ll") REGULAR_LL_KEYS (by decide) (by decide)

/-- Claim C5: for every message whose gridType is absent or not a key of the
grid-type catalog, the significance sniffer does not fail: it emits the
warning and returns exactly the edition-independent keys whose value in the
message is present and non-null, in catalog order. -/
theorem sniff_significant_keys_unknown_grid (message : Message) (ei_keys : List Key)
    (gtm : GridTypeMap)
    (h : ∀ g, Message.get message "gridType" = some g → dlookup gtm g = none) :
    sniff_significant_keys message ei_keys gtm =
      (true, ei_keys.filter (fun k => (Message.get message k).isSome)) := by
  have hb : (Message.get message "gridType").bind (fun g => dlookup gtm g) = none := by
    cases hg : Message.get message "gridType" with
    | none => rfl
    | some g => simpa using h g hg
  simp [sniff_significant_keys, hb]

/-- Witness for C5: a concrete message with no gridType key at all. -/
def unknownGridMessageW : Message :=
  [("paramId", some (Value.int 130)), ("units", some (Value.str "K"))]

theorem sniff_significant_keys_unknown_grid_witness :
    sniff_significant_keys unknownGridMessageW ["paramId", "shortName", "units"]
        GRID_TYPE_MAP =
      (true,
        (["paramId", "shortName", "units"] : List Key).filter
          (fun k => (Message.get unknownGridMessageW k).isSome)) :=
  sniff_significant_keys_unknown_grid unknownGridMessageW
    ["paramId", "shortName", "units"] GRID_TYPE_MAP
    (by intro g hg; simp [Message.get, dlookup] at hg)

/-- Claim C10: the coordinate sniffer's result is independent of its
grid-type-catalog argument: on the same index and key list, any two
catalogs yield equal outputs (the parameter is accepted but never
consulted). -/
theorem sniff_raw_coordinates_catalog_independent (idx : Index) (ks : List Key)
    (gtm1 gtm2 : GridTypeMap) :
    sniff_raw_coordinates idx ks gtm1 = sniff_raw_coordinates idx ks gtm2 := rfl

/-- Claim C6: the coordinate sniffer fails (with KeyError) exactly when the
index has no entry for one of the five required coordinate keys, and
otherwise returns a mapping binding each of the five keys to the index's
value sequence verbatim (same elements, same order; a single-valued key
yields its length-1 sequence unchanged). -/
theorem sniff_raw_coordinates_required_keys (idx : Index) (gtm : GridTypeMap) :
    ((∃ k ∈ RAW_COORDINATES_KEYS, dlookup idx k = none) ↔
      ∃ k, sniff_raw_coordinates idx RAW_COORDINATES_KEYS gtm =
        Except.error (PyError.keyError k))
    ∧ ∀ coords,
        sniff_raw_coordinates idx RAW_COORDINATES_KEYS gtm = Except.ok coords →
        ∀ k ∈ RAW_COORDINATES_KEYS, dlookup coords k = dlookup idx k := by
  constructor
  · constructor
    · intro habs
      exact sniffCoordsLoop_error_of_absent idx RAW_COORDINATES_KEYS [] habs
    · rintro ⟨k, hk⟩
      by_contra hno
      push_neg at hno
      have hpres : ∀ k₂ ∈ RAW_COORDINATES_KEYS, (dlookup idx k₂).isSome = true := by
        intro k₂ h2
        cases ho : dlookup idx k₂ with
        | none => exact absurd ho (hno k₂ h2)
        | some vs => rfl
      have heq := sniffCoordsLoop_ok idx RAW_COORDINATES_KEYS [] (by decide)
        (by simp) hpres
      simp only [sniff_raw_coordinates] at hk
      rw [heq] at hk
      simp at hk
  · intro coords hok k hk
    have hco := sniff_raw_coordinates_ok_eq idx RAW_COORDINATES_KEYS gtm (by decide)
      coords hok
    have hpres := sniffCoordsLoop_ok_present idx RAW_COORDINATES_KEYS [] coords hok
    obtain ⟨vs, hvs⟩ := Option.isSome_iff_exists.mp (hpres k hk)
    rw [hco, dlookup_keyedMap RAW_COORDINATES_KEYS _ k hk, hvs]
    rfl

/-- Witness index for C6 and C7: all five required coordinate keys present;
endStep is the only multi-valued one. -/
def rawIdxW : Index :=
  [("number", [Value.int 1]), ("dataDate", [Value.int 20200101]),
   ("dataTime", [Value.int 0]), ("endStep", [Value.int 0, Value.int 6]),
   ("topLevel", [Value.int 850])]

theorem sniff_raw_coordinates_required_keys_witness :
    ∃ coords,
      sniff_raw_coordinates rawIdxW RAW_COORDINATES_KEYS GRID_TYPE_MAP =
          Except.ok coords
        ∧ dlookup coords "endStep" = dlookup rawIdxW "endStep" := by
  refine ⟨_, rfl, ?_⟩
  exact (sniff_raw_coordinates_required_keys rawIdxW GRID_TYPE_MAP).2 _ rfl
    "endStep" (by decide)

/-- Claim C7: from a successful coordinate sniff, dimensions is the
subsequence of the candidate coordinate keys whose value sequence in
coordinates has length greater than one, in the fixed candidate order;
shape maps each dimension to its sequence's length in the same order (so
the two have equal length and shape matches dimensions pointwise); and a
key with exactly one observed value appears in coordinates but not in
dimensions (hence contributes no shape entry). -/
theorem variable_dimensions_shape_spec (idx : Index) (gtm : GridTypeMap)
    (coords : List (Key × List Value))
    (hok : sniff_raw_coordinates idx RAW_COORDINATES_KEYS gtm = Except.ok coords) :
    variableDimensions coords =
        RAW_COORDINATES_KEYS.filter
          (fun k => decide (1 < ((dlookup coords k).getD []).length))
    ∧ variableShape coords =
        (variableDimensions coords).map
          (fun k => ((dlookup coords k).getD []).length)
    ∧ (variableShape coords).length = (variableDimensions coords).length
    ∧ ∀ k ∈ RAW_COORDINATES_KEYS, ∀ vs, dlookup coords k = some vs →
        vs.length = 1 →
        k ∈ coords.map Prod.fst ∧ k ∉ variableDimensions coords := by
  have hco := sniff_raw_coordinates_ok_eq idx RAW_COORDINATES_KEYS gtm (by decide)
    coords hok
  have hdl : ∀ k ∈ RAW_COORDINATES_KEYS,
      dlookup coords k = some ((dlookup idx k).getD []) := by
    intro k hk
    rw [hco]
    exact dlookup_keyedMap RAW_COORDINATES_KEYS _ k hk
  have hdims : variableDimensions coords =
      RAW_COORDINATES_KEYS.filter
        (fun k => decide (1 < ((dlookup idx k).getD []).length)) := by
    rw [hco]
    exact variableDimensions_keyedMap RAW_COORDINATES_KEYS _
  have hshape : variableShape coords =
      (RAW_COORDINATES_KEYS.filter
        (fun k => decide (1 < ((dlookup idx k).getD []).length))).map
          (fun k => ((dlookup idx k).getD []).length) := by
    rw [hco]
    exact variableShape_keyedMap RAW_COORDINATES_KEYS _
  have hfc : RAW_COORDINATES_KEYS.filter
        (fun k => decide (1 < ((dlookup idx k).getD []).length)) =
      RAW_COORDINATES_KEYS.filter
        (fun k => decide (1 < ((dlookup coords k).getD []).length)) := by
    apply List.filter_congr
    intro k hk
    rw [hdl k hk]
    rfl
  refine ⟨?_, ?_, ?_, ?_⟩
  · rw [hdims, hfc]
  · rw [hshape, hdims]
    apply List.map_congr_left
    intro k hk
    have hk2 : k ∈ RAW_COORDINATES_KEYS := List.mem_of_mem_filter hk
    rw [hdl k hk2]
    rfl
  · rw [hshape, hdims, hfc, List.length_map]
  · intro k hk vs hvs hlen
    constructor
    · rw [hco, map_fst_keyedMap]
      exact hk
    · rw [hdims]
      intro hmem
      have hp := (List.mem_filter.mp hmem).2
      have hv2 : ((dlookup idx k).getD []) = vs := by
        have := hdl k hk
        rw [hvs] at this
        exact (Option.some.injEq _ _ ▸ this).symm ▸ rfl
      rw [hv2, hlen] at hp
      simp at hp

theorem variable_dimensions_shape_spec_witness :
    ∃ coords,
      sniff_raw_coordinates rawIdxW RAW_COORDINATES_KEYS GRID_TYPE_MAP =
          Except.ok coords
        ∧ (variableShape coords).length = (variableDimensions coords).length := by
  refine ⟨_, rfl, ?_⟩
  exact (variable_dimensions_shape_spec rawIdxW GRID_TYPE_MAP _ rfl).2.2.1

/-- Claim C2: over an index whose tracked keys (the attribute-key list
concatenated with the grid-type-specific keys) are all present with
non-empty, deduplicated value sequences, the attribute sniffer raises the
inconsistent-attribute (multiple-values) error if and only if some tracked
key's sequence has two or more distinct entries, in which case no mapping is
returned; otherwise it returns a mapping whose keys are exactly the tracked
keys, each bound to its sole value. -/
theorem sniff_variable_attrs_consistency (idx : Index) (attrs_keys : List Key)
    (gtm : GridTypeMap) (g : Option Value)
    (hg : attrsGridType idx = Except.ok g)
    (hpres : ∀ k ∈ attrs_keys ++ gtmGetOpt gtm g,
      dlookup idx k ≠ none ∧ (dlookup idx k).getD [] ≠ [] ∧
        ((dlookup idx k).getD []).Nodup) :
    ((∃ k ∈ attrs_keys ++ gtmGetOpt gtm g,
        ∃ a ∈ (dlookup idx k).getD [], ∃ b ∈ (dlookup idx k).getD [], a ≠ b) →
      (∃ k, sniff_variable_attrs idx attrs_keys gtm =
          Except.error (PyError.multipleValuesError k))
      ∧ ∀ attrs, sniff_variable_attrs idx attrs_keys gtm ≠ Except.ok attrs)
    ∧ ((∃ k, sniff_variable_attrs idx attrs_keys gtm =
          Except.error (PyError.multipleValuesError k)) →
        ∃ k ∈ attrs_keys ++ gtmGetOpt gtm g,
          ∃ a ∈ (dlookup idx k).getD [], ∃ b ∈ (dlookup idx k).getD [], a ≠ b)
    ∧ ((¬ ∃ k ∈ attrs_keys ++ gtmGetOpt gtm g,
          ∃ a ∈ (dlookup idx k).getD [], ∃ b ∈ (dlookup idx k).getD [], a ≠ b) →
        ∃ attrs, sniff_variable_attrs idx attrs_keys gtm = Except.ok attrs
          ∧ (∀ k, (dlookup attrs k).isSome = true ↔
              k ∈ attrs_keys ++ gtmGetOpt gtm g)
          ∧ ∀ k ∈ attrs_keys ++ gtmGetOpt gtm g,
              dlookup attrs k = ((dlookup idx k).getD []).head?) := by
  have hs : sniff_variable_attrs idx attrs_keys gtm =
      sniffAttrsLoop idx (attrs_keys ++ gtmGetOpt gtm g) [] := by
    simp [sniff_variable_attrs, hg]
  have hpres2 : ∀ k ∈ attrs_keys ++ gtmGetOpt gtm g,
      ∃ vs, dlookup idx k = some vs ∧ vs ≠ [] := by
    intro k hk
    obtain ⟨h1, h2, _⟩ := hpres k hk
    cases ho : dlookup idx k with
    | none => exact absurd ho h1
    | some vs =>
      refine ⟨vs, rfl, ?_⟩
      rw [ho] at h2
      simpa using h2
  have hmulti_len : ∀ k ∈ attrs_keys ++ gtmGetOpt gtm g,
      (∃ a ∈ (dlookup idx k).getD [], ∃ b ∈ (dlookup idx k).getD [], a ≠ b) ↔
        1 < ((dlookup idx k).getD []).length := by
    intro k hk
    exact exists_distinct_pair_iff _ (hpres k hk).2.2
  constructor
  · intro hmulti
    have hmulti2 : ∃ k ∈ attrs_keys ++ gtmGetOpt gtm g,
        ∃ vs, dlookup idx k = some vs ∧ 1 < vs.length := by
      obtain ⟨k, hk, hpair⟩ := hmulti
      obtain ⟨vs, hvs, _⟩ := hpres2 k hk
      refine ⟨k, hk, vs, hvs, ?_⟩
      have := (hmulti_len k hk).mp hpair
      rw [hvs] at this
      simpa using this
    obtain ⟨k₃, h3⟩ := sniffAttrsLoop_error_of_multi idx
      (attrs_keys ++ gtmGetOpt gtm g) [] hpres2 hmulti2
    refine ⟨⟨k₃, hs.trans h3⟩, ?_⟩
    intro attrs hok
    rw [hs, h3] at hok
    cases hok
  · constructor
    · rintro ⟨k, herr⟩
      by_contra hno
      have hsingle : ∀ k₂ ∈ attrs_keys ++ gtmGetOpt gtm g,
          ∃ v, dlookup idx k₂ = some [v] := by
        intro k₂ hk₂
        obtain ⟨vs, hvs, hne⟩ := hpres2 k₂ hk₂
        have hlen : ¬ 1 < vs.length := by
          intro hlt
          apply hno
          refine ⟨k₂, hk₂, ?_⟩
          apply (hmulti_len k₂ hk₂).mpr
          rw [hvs]
          simpa using hlt
        have hone : vs.length = 1 := by
          cases vs with
          | nil => exact absurd rfl hne
          | cons a t =>
            cases t with
            | nil => rfl
            | cons b t2 => exact absurd (by simp) hlen
        obtain ⟨v, hv⟩ := List.length_eq_one.mp hone
        exact ⟨v, hv ▸ hvs⟩
      obtain ⟨attrs, hok, _, _, _⟩ := sniffAttrsLoop_ok_of_singletons idx
        (attrs_keys ++ gtmGetOpt gtm g) [] hsingle
      rw [hs, hok] at herr
      cases herr
    · intro hno
      have hsingle : ∀ k₂ ∈ attrs_keys ++ gtmGetOpt gtm g,
          ∃ v, dlookup idx k₂ = some [v] := by
        intro k₂ hk₂
        obtain ⟨vs, hvs, hne⟩ := hpres2 k₂ hk₂
        have hlen : ¬ 1 < vs.length := by
          intro hlt
          apply hno
          refine ⟨k₂, hk₂, ?_⟩
          apply (hmulti_len k₂ hk₂).mpr
          rw [hvs]
          simpa using hlt
        have hone : vs.length = 1 := by
          cases vs with
          | nil => exact absurd rfl hne
          | cons a t =>
            cases t with
            | nil => rfl
            | cons b t2 => exact absurd (by simp) hlen
        obtain ⟨v, hv⟩ := List.length_eq_one.mp hone
        exact ⟨v, hv ▸ hvs⟩
      obtain ⟨attrs, hok, hmem, hin, _⟩ := sniffAttrsLoop_ok_of_singletons idx
        (attrs_keys ++ gtmGetOpt gtm g) [] hsingle
      refine ⟨attrs, hs.trans hok, ?_, hin⟩
      intro k
      rw [hmem k]
      simp [dlookup]

/-- Witness index for C2 and C8 successes: singleton entries, an unknown
grid type. -/
def attrsIdxW : Index :=
  [("centre", [Value.str "ecmf"]), ("gridType", [Value.str "weird"])]

theorem sniff_variable_attrs_consistency_witness :
    ∃ attrs,
      sniff_variable_attrs attrsIdxW ["centre", "gridType"] GRID_TYPE_MAP =
          Except.ok attrs
        ∧ (∀ k, (dlookup attrs k).isSome = true ↔
            k ∈ (["centre", "gridType"] : List Key) ++
              gtmGetOpt GRID_TYPE_MAP (some (Value.str "weird")))
        ∧ ∀ k ∈ (["centre", "gridType"] : List Key) ++
              gtmGetOpt GRID_TYPE_MAP (some (Value.str "weird")),
            dlookup attrs k = ((dlookup attrsIdxW k).getD []).head? :=
  (sniff_variable_attrs_consistency attrsIdxW ["centre", "gridType"] GRID_TYPE_MAP
    (some (Value.str "weird")) rfl (by decide)).2.2 (by decide)

/-- Claim C8: when the index has no entry for the key gridType, the
attribute sniffer's grid-type determination step does not fail: the
`[None]` default makes the grid type null, the grid-type-specific key set
is empty, and the sniffer proceeds to process exactly the attribute-key
list. -/
theorem sniff_variable_attrs_no_gridType (idx : Index) (attrs_keys : List Key)
    (gtm : GridTypeMap) (h : dlookup idx "gridType" = none) :
    attrsGridType idx = Except.ok none
    ∧ sniff_variable_attrs idx attrs_keys gtm =
        sniffAttrsLoop idx attrs_keys [] := by
  have h1 : attrsGridType idx = Except.ok none := by
    simp [attrsGridType, h]
  refine ⟨h1, ?_⟩
  simp [sniff_variable_attrs, h1, gtmGetOpt]

/-- Witness index for C8: a gridType-free index. -/
def noGridTypeIdxW : Index := [("centre", [Value.str "ecmf"])]

theorem sniff_variable_attrs_no_gridType_witness :
    attrsGridType noGridTypeIdxW = Except.ok none
    ∧ sniff_variable_attrs noGridTypeIdxW ["centre"] GRID_TYPE_MAP =
        sniffAttrsLoop noGridTypeIdxW ["centre"] [] :=
  sniff_variable_attrs_no_gridType noGridTypeIdxW ["centre"] GRID_TYPE_MAP
    (by decide)

/-- Claim C3 (amended): the Variable grouping guard raises the
multi-value-grouping error exactly when more than one distinct grouping-key
value is present, and proceeds past the guard exactly when at most one
(zero or one) distinct value is present. -/
theorem groupGuard_at_most_one (pidx : ParamIdIndex) :
    (groupGuard pidx = Except.error PyError.multipleVariablesError ↔
      1 < pidx.distinctValues.length)
    ∧ (groupGuard pidx = Except.ok () ↔ pidx.distinctValues.length ≤ 1) := by
  by_cases h : 1 < pidx.distinctValues.length
  · have hg : groupGuard pidx = Except.error PyError.multipleVariablesError := by
      simp [groupGuard, h]
    rw [hg]
    refine ⟨⟨fun _ => h, fun _ => rfl⟩, ?_, ?_⟩
    · intro he
      exact Except.noConfusion he
    · intro hle
      omega
  · have hg : groupGuard pidx = Except.ok () := by
      simp [groupGuard, h]
    rw [hg]
    refine ⟨⟨?_, ?_⟩, fun _ => by omega, fun _ => rfl⟩
    · intro he
      exact Except.noConfusion he
    · intro hlt
      exact absurd hlt h

/-- Counterexample for C3 as stated: with zero distinct grouping-key values
in scope the guard raises nothing and construction proceeds past it, so the
guard does not assert that exactly one distinct value is present. -/
theorem groupGuard_zero_values_passes :
    groupGuard { distinctValues := [] } = Except.ok ()
    ∧ ({ distinctValues := [] } : ParamIdIndex).distinctValues.length ≠ 1 :=
  ⟨rfl, by decide⟩

/-- Claim C9: build_array is idempotent on a freshly constructed Variable:
the first call returns exactly the shape-conforming container filled with
the missing sentinel, produced from the shape alone (no payload decode),
and a repeated call returns the identical array and leaves the state
unchanged. -/
theorem build_array_idempotent (v : VariableState)
    (h : v.build_array_cache = none) :
    (build_array v).1.shape = v.shape
    ∧ (∀ x ∈ (build_array v).1.data, x = Value.nan)
    ∧ build_array (build_array v).2 = ((build_array v).1, (build_array v).2)
    ∧ (build_array v).1 = npFull v.shape Value.nan := by
  have h1 : build_array v =
      (npFull v.shape Value.nan,
        { v with build_array_cache := some (npFull v.shape Value.nan) }) := by
    simp [build_array, h]
  rw [h1]
  refine ⟨rfl, ?_, rfl, rfl⟩
  intro x hx
  exact List.eq_of_mem_replicate hx

theorem build_array_idempotent_witness :
    (build_array ⟨[2, 3], none⟩).1.shape = [2, 3]
    ∧ (∀ x ∈ (build_array ⟨[2, 3], none⟩).1.data, x = Value.nan)
    ∧ build_array (build_array ⟨[2, 3], none⟩).2 =
        ((build_array ⟨[2, 3], none⟩).1, (build_array ⟨[2, 3], none⟩).2)
    ∧ (build_array ⟨[2, 3], none⟩).1 = npFull [2, 3] Value.nan :=
  build_array_idempotent ⟨[2, 3], none⟩ rfl

/-- Claim C1 (code bug): `Dataset.variables` passes the keyword `dataset`
to the Variable initializer, which accepts only paramId, stream and name,
so every iteration of the enumeration raises TypeError instead of
constructing a Variable: for any stream whose grouping-key index is
non-empty the enumeration returns no mapping at all. -/
theorem datasetVariables_typeError :
    (variableInitKeywords.contains "dataset") = false
    ∧ (∀ (p : Value) (ps : List Value),
        datasetVariablesRun (p :: ps) = Except.error (PyError.typeError "dataset"))
    ∧ datasetVariablesRun [Value.int 1] =
        Except.error (PyError.typeError "dataset") :=
  ⟨rfl, fun p ps => rfl, rfl⟩

end EccodesGrib
